import Mathlib

/-!
# Verification of the tmux-adapter core against its specification

Shallow embedding of the tmux-adapter Go sources (nudge choreography, WebSocket
binary protocol, file upload, subscribe-output streaming, request authorization,
path sanitisation), with theorems settling the frozen claims about them.

Byte strings from the Go side (`[]byte`, and Go `string`s that are treated as
byte sequences) are modelled as `List Nat`; effectful calls into tmux or the OS
are modelled by explicit oracles (`exec : Nat → TmuxCmd → Bool` gives the
success of the n-th tmux command issued) and by returned effect traces.
-/

namespace TmuxAdapter

/-- Go byte strings (`[]byte` / `string`) modelled as lists of byte values. -/
abbrev Bytes := List Nat

/-- ASCII string literal as a byte list (all uses are pure-ASCII constants). -/
def asciiBytes (s : String) : Bytes := s.data.map Char.toNat

/-- `agents.Agent` — the fields of the registry's agent record
(src/internal/agents, spec §3 data model). -/
structure Agent where
  name : String
  role : String
  runtime : String
  rig : Option String
  workDir : String
  attached : Bool
deriving DecidableEq, Repr

/-! ## Nudge choreography (src/internal/nudge/nudge.go)

`Session` issues tmux commands through `ctrl`; we model each command as a
`TmuxCmd` value and the control connection as an oracle `exec n c` telling
whether the n-th issued command `c` succeeds.  The trace of issued commands and
sleeps is returned alongside the `error` result (`none` = success). -/

/-- The tmux commands `nudge.Session` can issue. -/
inductive TmuxCmd where
  | sendKeysLiteral (target text : String)
  | sendKeysRaw (target key : String)
  | resizePane (target delta : String)
deriving DecidableEq, Repr

/-- One observable event of a `Session` run: a tmux command or a sleep (ms). -/
inductive Ev where
  | cmd (c : TmuxCmd)
  | sleep (ms : Nat)
deriving DecidableEq, Repr

/-- The `for attempt := 0; attempt < 3; attempt++` loop of `nudge.Session`
(steps 4–5): back-off sleep before every retry, send `Enter`, and on its
success the SIGWINCH wake dance for detached sessions (resize errors are only
logged).  `n` is the index of the next issued command, `remaining` the number
of attempts left, `first` whether this is attempt 0. -/
def enterAttempts (exec : Nat → TmuxCmd → Bool) (session : String) (attached : Bool) :
    Nat → Nat → Bool → List Ev × Option String
  | _, 0, _ => ([], some "failed to send Enter after 3 attempts")
  | n, remaining + 1, first =>
    let pre : List Ev := if first then [] else [Ev.sleep 200]
    let cE := TmuxCmd.sendKeysRaw session "Enter"
    if exec n cE then
      let wake : List Ev :=
        if attached then []
        else [Ev.cmd (TmuxCmd.resizePane session "-1"), Ev.sleep 50,
              Ev.cmd (TmuxCmd.resizePane session "+1")]
      (pre ++ Ev.cmd cE :: wake, none)
    else
      let rest := enterAttempts exec session attached (n + 1) remaining false
      (pre ++ Ev.cmd cE :: rest.1, rest.2)

/-- `nudge.Session(ctrl, agent, prompt)`: literal send → 500 ms → `Escape` →
100 ms → `Enter` with 3 attempts and 200 ms back-off → wake dance when the
agent is detached.  Returns the event trace and the error result. -/
def Session (exec : Nat → TmuxCmd → Bool) (agent : Agent) (prompt : String) :
    List Ev × Option String :=
  let session := agent.name
  let cLit := TmuxCmd.sendKeysLiteral session prompt
  if exec 0 cLit then
    let cEsc := TmuxCmd.sendKeysRaw session "Escape"
    if exec 1 cEsc then
      let rest := enterAttempts exec session agent.attached 2 3 true
      (Ev.cmd cLit :: Ev.sleep 500 :: Ev.cmd cEsc :: Ev.sleep 100 :: rest.1, rest.2)
    else
      ([Ev.cmd cLit, Ev.sleep 500, Ev.cmd cEsc], some "send Escape")
  else
    ([Ev.cmd cLit], some "send literal")

/-- Oracle on which every tmux command succeeds. -/
def execAllOk : Nat → TmuxCmd → Bool := fun _ _ => true

/-- Oracle on which exactly the `Escape` send fails. -/
def execEscapeFails : Nat → TmuxCmd → Bool := fun _ c =>
  match c with
  | TmuxCmd.sendKeysRaw _ key => if key = "Escape" then false else true
  | _ => true

/-- A concrete attached agent for witnesses. -/
def agAttached : Agent := ⟨"hq-mayor", "mayor", "claude", none, "/gt/hq", true⟩

/-- A concrete detached agent for witnesses. -/
def agDetached : Agent := ⟨"hq-mayor", "mayor", "claude", none, "/gt/hq", false⟩

/-- C1: a successful `nudge.Session` issues exactly: one literal-mode send of
the prompt, a 500 ms pause, one `Escape` send, a 100 ms pause, `Enter` sends
(k ≤ 2 failed attempts each followed by the 200 ms back-off, then the
successful one), and — if and only if the agent is not attached — a
resize-pane shrink by one row, a 50 ms pause, and a resize-pane grow. -/
theorem nudge_session_success_trace
    (exec : Nat → TmuxCmd → Bool) (agent : Agent) (prompt : String)
    (h : (Session exec agent prompt).2 = none) :
    ∃ k ≤ 2, (Session exec agent prompt).1 =
      [Ev.cmd (TmuxCmd.sendKeysLiteral agent.name prompt), Ev.sleep 500,
       Ev.cmd (TmuxCmd.sendKeysRaw agent.name "Escape"), Ev.sleep 100] ++
      (List.replicate k
        [Ev.cmd (TmuxCmd.sendKeysRaw agent.name "Enter"), Ev.sleep 200]).flatten ++
      [Ev.cmd (TmuxCmd.sendKeysRaw agent.name "Enter")] ++
      (if agent.attached then []
       else [Ev.cmd (TmuxCmd.resizePane agent.name "-1"), Ev.sleep 50,
             Ev.cmd (TmuxCmd.resizePane agent.name "+1")]) := by
  cases h0 : exec 0 (TmuxCmd.sendKeysLiteral agent.name prompt) with
  | false => simp [Session, h0] at h
  | true =>
    cases h1 : exec 1 (TmuxCmd.sendKeysRaw agent.name "Escape") with
    | false => simp [Session, h0, h1] at h
    | true =>
      cases h2 : exec 2 (TmuxCmd.sendKeysRaw agent.name "Enter") with
      | true =>
        exact ⟨0, by norm_num, by simp [Session, enterAttempts, h0, h1, h2]⟩
      | false =>
        cases h3 : exec 3 (TmuxCmd.sendKeysRaw agent.name "Enter") with
        | true =>
          exact ⟨1, by norm_num, by simp [Session, enterAttempts, h0, h1, h2, h3]⟩
        | false =>
          cases h4 : exec 4 (TmuxCmd.sendKeysRaw agent.name "Enter") with
          | true =>
            exact ⟨2, by norm_num, by simp [Session, enterAttempts, h0, h1, h2, h3, h4]⟩
          | false => simp [Session, enterAttempts, h0, h1, h2, h3, h4] at h

/-- C1 witness: on the all-successful oracle with the attached witness agent,
the run succeeds and the trace is as stated. -/
theorem nudge_session_success_trace_witness :
    (Session execAllOk agAttached "hello").2 = none ∧
    ∃ k ≤ 2, (Session execAllOk agAttached "hello").1 =
      [Ev.cmd (TmuxCmd.sendKeysLiteral agAttached.name "hello"), Ev.sleep 500,
       Ev.cmd (TmuxCmd.sendKeysRaw agAttached.name "Escape"), Ev.sleep 100] ++
      (List.replicate k
        [Ev.cmd (TmuxCmd.sendKeysRaw agAttached.name "Enter"), Ev.sleep 200]).flatten ++
      [Ev.cmd (TmuxCmd.sendKeysRaw agAttached.name "Enter")] ++
      (if agAttached.attached then []
       else [Ev.cmd (TmuxCmd.resizePane agAttached.name "-1"), Ev.sleep 50,
             Ev.cmd (TmuxCmd.resizePane agAttached.name "+1")]) := by
  have hnone : (Session execAllOk agAttached "hello").2 = none := by rfl
  exact ⟨hnone, nudge_session_success_trace execAllOk agAttached "hello" hnone⟩

/-- C2 counterexample: with an oracle on which the `Escape` send fails (and
every other command, in particular every `Enter` send, succeeds), `Session`
returns an error, refuting "error iff the literal send fails or the Enter send
fails on all 3 attempts". -/
theorem nudge_session_error_claim_false :
    ¬(((Session execEscapeFails agDetached "hello").2.isSome = true) ↔
      (execEscapeFails 0 (TmuxCmd.sendKeysLiteral agDetached.name "hello") = false ∨
       ∀ n, execEscapeFails n (TmuxCmd.sendKeysRaw agDetached.name "Enter") = false)) := by
  intro hiff
  rcases hiff.mp rfl with h | h
  · simp [execEscapeFails] at h
  · have h0 := h 0
    simp [execEscapeFails] at h0

/-- C2 amended: `nudge.Session` returns an error if and only if the literal
prompt send fails, or it succeeds and the `Escape` send fails, or both succeed
and all three `Enter` attempts (commands 2, 3, 4) fail.  In particular the
wake-dance resize results never influence the returned error. -/
theorem nudge_session_error_iff
    (exec : Nat → TmuxCmd → Bool) (agent : Agent) (prompt : String) :
    (Session exec agent prompt).2.isSome = true ↔
      (exec 0 (TmuxCmd.sendKeysLiteral agent.name prompt) = false ∨
       (exec 0 (TmuxCmd.sendKeysLiteral agent.name prompt) = true ∧
        exec 1 (TmuxCmd.sendKeysRaw agent.name "Escape") = false) ∨
       (exec 0 (TmuxCmd.sendKeysLiteral agent.name prompt) = true ∧
        exec 1 (TmuxCmd.sendKeysRaw agent.name "Escape") = true ∧
        exec 2 (TmuxCmd.sendKeysRaw agent.name "Enter") = false ∧
        exec 3 (TmuxCmd.sendKeysRaw agent.name "Enter") = false ∧
        exec 4 (TmuxCmd.sendKeysRaw agent.name "Enter") = false)) := by
  cases h0 : exec 0 (TmuxCmd.sendKeysLiteral agent.name prompt) with
  | false => simp [Session, h0]
  | true =>
    cases h1 : exec 1 (TmuxCmd.sendKeysRaw agent.name "Escape") with
    | false => simp [Session, h0, h1]
    | true =>
      cases h2 : exec 2 (TmuxCmd.sendKeysRaw agent.name "Enter") with
      | true => simp [Session, enterAttempts, h0, h1, h2]
      | false =>
        cases h3 : exec 3 (TmuxCmd.sendKeysRaw agent.name "Enter") with
        | true => simp [Session, enterAttempts, h0, h1, h2, h3]
        | false =>
          cases h4 : exec 4 (TmuxCmd.sendKeysRaw agent.name "Enter") with
          | true => simp [Session, enterAttempts, h0, h1, h2, h3, h4]
          | false => simp [Session, enterAttempts, h0, h1, h2, h3, h4]

/-! ## Binary WebSocket protocol (src/internal/ws/handler.go, file_upload.go)

Frames are byte lists.  `bytes.IndexByte` is `indexByte`; Go string slicing
becomes `List.take`/`List.drop`. -/

/-- `bytes.IndexByte(l, b)`: index of the first occurrence of `b`, if any. -/
def indexByte (b : Nat) : Bytes → Option Nat
  | [] => none
  | x :: xs => if x = b then some 0 else (indexByte b xs).map (· + 1)

/-- Byte-level model of `strings.TrimSpace` as used on the ASCII fields of the
binary protocol (file names, mime types): trim leading and trailing ASCII
whitespace bytes. -/
def goIsSpaceByte (b : Nat) : Bool :=
  b = 0x20 || (0x9 ≤ b && b ≤ 0xD)

/-- Drop from the right while the predicate holds. -/
def trimRightWhile (p : α → Bool) (l : List α) : List α :=
  (l.reverse.dropWhile p).reverse

/-- Drop from both ends while the predicate holds (Go `strings.Trim` shape). -/
def trimWhile (p : α → Bool) (l : List α) : List α :=
  trimRightWhile p (l.dropWhile p)

/-- `strings.TrimSpace` on byte strings. -/
def trimSpaceBytes (l : Bytes) : Bytes := trimWhile goIsSpaceByte l

/-- The errors of the binary file-upload path (error identities of the Go
`fmt.Errorf` messages in handleBinaryFileUpload/parseFileUploadPayload). -/
inductive UploadErr where
  | missingFilenameSep
  | missingMimeSep
  | tooLarge (size : Nat)
  | agentNotFound
  | saveFailed
  | pasteFailed
deriving DecidableEq, Repr

/-- `parseFileUploadPayload`: split `fileName \0 mimeType \0 fileBytes`,
trimming the name and mime and defaulting an empty name to "attachment.bin". -/
def parseFileUploadPayload (payload : Bytes) :
    Except UploadErr (Bytes × Bytes × Bytes) :=
  match indexByte 0 payload with
  | none => .error UploadErr.missingFilenameSep
  | some first =>
    match indexByte 0 (payload.drop (first + 1)) with
    | none => .error UploadErr.missingMimeSep
    | some secondRel =>
      let second := first + 1 + secondRel
      let fileName0 := trimSpaceBytes (payload.take first)
      let fileName := if fileName0 = [] then asciiBytes "attachment.bin" else fileName0
      let mimeType := trimSpaceBytes ((payload.take second).drop (first + 1))
      let data := payload.drop (second + 1)
      .ok (fileName, mimeType, data)

/-- `maxFileUploadBytes = 8 * 1024 * 1024`. -/
def maxFileUploadBytes : Nat := 8 * 1024 * 1024

/-- `maxInlinePasteBytes = 256 * 1024`. -/
def maxInlinePasteBytes : Nat := 256 * 1024

/-- UTF-8 continuation byte (0x80–0xBF). -/
def utf8Cont (b : Nat) : Bool := 0x80 ≤ b && b ≤ 0xBF

/-- `utf8.Valid`: the byte list is well-formed UTF-8 (shortest form, no
surrogates, max U+10FFFF), following Go's accept-range table. -/
def utf8Valid : Bytes → Bool
  | [] => true
  | b :: rest =>
    if b ≤ 0x7F then utf8Valid rest
    else if 0xC2 ≤ b && b ≤ 0xDF then
      match rest with
      | b1 :: r => utf8Cont b1 && utf8Valid r
      | _ => false
    else if b = 0xE0 then
      match rest with
      | b1 :: b2 :: r => (0xA0 ≤ b1 && b1 ≤ 0xBF) && utf8Cont b2 && utf8Valid r
      | _ => false
    else if (0xE1 ≤ b && b ≤ 0xEC) || b = 0xEE || b = 0xEF then
      match rest with
      | b1 :: b2 :: r => utf8Cont b1 && utf8Cont b2 && utf8Valid r
      | _ => false
    else if b = 0xED then
      match rest with
      | b1 :: b2 :: r => (0x80 ≤ b1 && b1 ≤ 0x9F) && utf8Cont b2 && utf8Valid r
      | _ => false
    else if b = 0xF0 then
      match rest with
      | b1 :: b2 :: b3 :: r =>
        (0x90 ≤ b1 && b1 ≤ 0xBF) && utf8Cont b2 && utf8Cont b3 && utf8Valid r
      | _ => false
    else if 0xF1 ≤ b && b ≤ 0xF3 then
      match rest with
      | b1 :: b2 :: b3 :: r => utf8Cont b1 && utf8Cont b2 && utf8Cont b3 && utf8Valid r
      | _ => false
    else if b = 0xF4 then
      match rest with
      | b1 :: b2 :: b3 :: r =>
        (0x80 ≤ b1 && b1 ≤ 0x8F) && utf8Cont b2 && utf8Cont b3 && utf8Valid r
      | _ => false
    else false

/-- `isUTF8Text(data)`: empty, or valid UTF-8 with no NUL byte and no control
byte other than tab/CR/LF in the first 4096 bytes. -/
def isUTF8Text (data : Bytes) : Bool :=
  if data = [] then true
  else if !utf8Valid data then false
  else if (indexByte 0 data).isSome then false
  else (data.take 4096).all fun b => !(b < 0x20 && b ≠ 10 && b ≠ 13 && b ≠ 9)

/-- `isTextLike(mimeType, data)` translated branch by branch: the `text/`
prefix test and the application-mime switch both return `isUTF8Text(data)`,
and so does the final fallthrough. -/
def isTextLike (mimeType : Bytes) (data : Bytes) : Bool :=
  if (asciiBytes "text/").isPrefixOf mimeType then isUTF8Text data
  else if mimeType = asciiBytes "application/json" ∨
          mimeType = asciiBytes "application/xml" ∨
          mimeType = asciiBytes "application/x-yaml" ∨
          mimeType = asciiBytes "application/javascript" then isUTF8Text data
  else isUTF8Text data

/-- `buildPastePayload(savedPath, mimeType, fileBytes)`: inline the file
contents when small enough and text-like, otherwise paste the saved path. -/
def buildPastePayload (savedPath : Bytes) (mimeType : Bytes) (fileBytes : Bytes) :
    Bytes :=
  if fileBytes.length ≤ maxInlinePasteBytes && isTextLike mimeType fileBytes then
    fileBytes
  else savedPath

/-- Observable side effects of the binary handlers: tmux commands issued and
OS-level actions taken. -/
inductive WsEffect where
  | sendKeysRawKey (target : Bytes) (key : String)
  | sendKeysBytes (target : Bytes) (data : Bytes)
  | resizeWindow (target : Bytes) (cols rows : Int)
  | saveFile (workDir : String) (agent fileName data : Bytes)
  | clipboard (data : Bytes)
  | pasteBytes (target : Bytes) (data : Bytes)
deriving DecidableEq, Repr

/-- Environment for `handleBinaryFileUpload`: the registry lookup result, the
outcome of `saveUploadedFile` (the absolute saved path, or `none` on failure),
and whether `PasteBytes` succeeds.  The clipboard copy is best-effort (errors
only logged), so its outcome does not appear. -/
structure UploadEnv where
  agent : Option Agent
  savedPath : Option Bytes
  pasteOk : Bool

/-- `handleBinaryFileUpload(c, agentName, payload)`: parse, enforce the 8 MiB
cap on the file bytes, look up the agent, save, build the paste payload, copy
to the clipboard (best-effort) and paste into the tmux target.  Returns the
effect trace and the error result. -/
def handleBinaryFileUpload (env : UploadEnv) (agentName : Bytes) (payload : Bytes) :
    List WsEffect × Option UploadErr :=
  match parseFileUploadPayload payload with
  | .error e => ([], some e)
  | .ok (fileName, mimeType, fileBytes) =>
    if maxFileUploadBytes < fileBytes.length then
      ([], some (UploadErr.tooLarge fileBytes.length))
    else
      match env.agent with
      | none => ([], some UploadErr.agentNotFound)
      | some agent =>
        match env.savedPath with
        | none => ([WsEffect.saveFile agent.workDir agentName fileName fileBytes],
                   some UploadErr.saveFailed)
        | some savedPath =>
          let pastePayload := buildPastePayload savedPath mimeType fileBytes
          ([WsEffect.saveFile agent.workDir agentName fileName fileBytes,
            WsEffect.clipboard pastePayload,
            WsEffect.pasteBytes agentName pastePayload],
           if env.pasteOk then none else some UploadErr.pasteFailed)

/-- `parseBinaryEnvelope(data)`: `type(1) | agentName | 0x00 | payload`, with
the length, missing-separator and empty-name checks of the Go source. -/
def parseBinaryEnvelope (data : Bytes) :
    Except String (Nat × Bytes × Bytes) :=
  if data.length < 3 then .error "frame too short"
  else
    match data with
    | [] => .error "frame too short"
    | msgType :: rest =>
      match indexByte 0 rest with
      | none => .error "missing agent separator"
      | some idx =>
        if idx = 0 then .error "missing agent name"
        else .ok (msgType, rest.take idx, rest.drop (idx + 1))

/-- `tmuxKeyNameFromVT(payload)`: the exhaustive VT-sequence → tmux key-name
table. -/
def tmuxKeyNameFromVT (payload : Bytes) : Option String :=
  if payload = [0x1b, 0x5b, 0x5a] then some "BTab"
  else if payload = [0x1b, 0x5b, 0x41] ∨ payload = [0x1b, 0x4f, 0x41] then some "Up"
  else if payload = [0x1b, 0x5b, 0x42] ∨ payload = [0x1b, 0x4f, 0x42] then some "Down"
  else if payload = [0x1b, 0x5b, 0x43] ∨ payload = [0x1b, 0x4f, 0x43] then some "Right"
  else if payload = [0x1b, 0x5b, 0x44] ∨ payload = [0x1b, 0x4f, 0x44] then some "Left"
  else if payload = [0x1b, 0x5b, 0x48] ∨ payload = [0x1b, 0x4f, 0x48] then some "Home"
  else if payload = [0x1b, 0x5b, 0x46] ∨ payload = [0x1b, 0x4f, 0x46] then some "End"
  else if payload = [0x1b, 0x5b, 0x35, 0x7e] then some "PgUp"
  else if payload = [0x1b, 0x5b, 0x36, 0x7e] then some "PgDn"
  else if payload = [0x1b, 0x5b, 0x32, 0x7e] then some "IC"
  else if payload = [0x1b, 0x5b, 0x33, 0x7e] then some "DC"
  else if payload = [0x1b, 0x4f, 0x50] then some "F1"
  else if payload = [0x1b, 0x4f, 0x51] then some "F2"
  else if payload = [0x1b, 0x4f, 0x52] then some "F3"
  else if payload = [0x1b, 0x4f, 0x53] then some "F4"
  else if payload = [0x1b, 0x5b, 0x31, 0x35, 0x7e] then some "F5"
  else if payload = [0x1b, 0x5b, 0x31, 0x37, 0x7e] then some "F6"
  else if payload = [0x1b, 0x5b, 0x31, 0x38, 0x7e] then some "F7"
  else if payload = [0x1b, 0x5b, 0x31, 0x39, 0x7e] then some "F8"
  else if payload = [0x1b, 0x5b, 0x32, 0x30, 0x7e] then some "F9"
  else if payload = [0x1b, 0x5b, 0x32, 0x31, 0x7e] then some "F10"
  else if payload = [0x1b, 0x5b, 0x32, 0x33, 0x7e] then some "F11"
  else if payload = [0x1b, 0x5b, 0x32, 0x34, 0x7e] then some "F12"
  else if payload = [0x1b] then some "Escape"
  else if payload = [0x7f] then some "BSpace"
  else none

/-- `sendKeyboardPayload`: known VT sequences become named keys via
`SendKeysRaw`; anything else is injected byte-exact via `SendKeysBytes`
(which issues no command for empty input). -/
def sendKeyboardPayload (agentName payload : Bytes) : List WsEffect :=
  match tmuxKeyNameFromVT payload with
  | some keyName => [WsEffect.sendKeysRawKey agentName keyName]
  | none => if payload = [] then [] else [WsEffect.sendKeysBytes agentName payload]

/-- All-decimal-digit byte string to its value (`none` on empty or non-digit). -/
def decVal (l : Bytes) : Option Nat :=
  if l = [] then none
  else l.foldl (fun acc d =>
    match acc with
    | none => none
    | some v => if 48 ≤ d ∧ d ≤ 57 then some (v * 10 + (d - 48)) else none)
    (some 0)

/-- `strconv.Atoi` on a byte string: optional sign, decimal digits, and the
64-bit signed range check (out-of-range input is an error). -/
def atoi64 (s : Bytes) : Option Int :=
  match s with
  | 43 :: rest =>
    (decVal rest).bind fun v =>
      if v ≤ 9223372036854775807 then some (v : Int) else none
  | 45 :: rest =>
    (decVal rest).bind fun v =>
      if v ≤ 9223372036854775808 then some (-(v : Int)) else none
  | _ =>
    (decVal s).bind fun v =>
      if v ≤ 9223372036854775807 then some (v : Int) else none

/-- `strings.SplitN(s, ":", 2)` when a separator is present: the part before
the first `':'` byte and the remainder after it (`none` when `s` has no `':'`,
in which case SplitN yields a single part and the handler rejects). -/
def splitFirstColon (s : Bytes) : Option (Bytes × Bytes) :=
  match indexByte 0x3a s with
  | none => none
  | some i => some (s.take i, s.drop (i + 1))

/-- The error responses `handleBinaryMessage` can send (via `c.sendError`). -/
inductive BinResp where
  | invalidEnvelope (e : String)
  | keyboardError (agent : Bytes)
  | invalidResizePayload (agent : Bytes)
  | resizeOutOfRange (agent : Bytes) (cols rows : Int)
  | resizeError (agent : Bytes)
  | uploadError (agent : Bytes) (e : UploadErr)
  | unknownType (t : Nat)
deriving DecidableEq, Repr

/-- Environment for `handleBinaryMessage`: the upload environment plus the
success of the keyboard send and of the resize-window command. -/
structure BinEnv where
  upload : UploadEnv
  kbOk : Bool
  resizeOk : Bool

/-- `handleBinaryMessage(c, data)`: parse the envelope, then route by type
byte — 0x02 keyboard input, 0x03 resize (`cols:rows`, rejected when
`cols < 2 ∨ rows < 1`, otherwise `ResizePaneTo` = `resize-window` with exactly
those dimensions), 0x04 file upload, anything else an unknown-type error.
Returns the effects issued and the error responses sent. -/
def handleBinaryMessage (env : BinEnv) (data : Bytes) :
    List WsEffect × List BinResp :=
  match parseBinaryEnvelope data with
  | .error e => ([], [BinResp.invalidEnvelope e])
  | .ok (msgType, agentName, payload) =>
    if msgType = 2 then
      let effs := sendKeyboardPayload agentName payload
      (effs, if effs = [] ∨ env.kbOk then [] else [BinResp.keyboardError agentName])
    else if msgType = 3 then
      match splitFirstColon payload with
      | none => ([], [BinResp.invalidResizePayload agentName])
      | some (a, b) =>
        match atoi64 a, atoi64 b with
        | some cols, some rows =>
          if cols < 2 ∨ rows < 1 then
            ([], [BinResp.resizeOutOfRange agentName cols rows])
          else
            ([WsEffect.resizeWindow agentName cols rows],
             if env.resizeOk then [] else [BinResp.resizeError agentName])
        | _, _ => ([], [BinResp.invalidResizePayload agentName])
    else if msgType = 4 then
      let r := handleBinaryFileUpload env.upload agentName payload
      (r.1, match r.2 with
            | none => []
            | some e => [BinResp.uploadError agentName e])
    else ([], [BinResp.unknownType msgType])

/-- If a byte does not occur in a list, `indexByte` finds nothing. -/
theorem indexByte_eq_none (b : Nat) (l : Bytes) (h : b ∉ l) : indexByte b l = none := by
  induction l with
  | nil => rfl
  | cons x xs ih =>
    have hx : x ≠ b := by rintro rfl; exact h (List.mem_cons_self x xs)
    simp [indexByte, hx, ih fun hm => h (List.mem_cons_of_mem _ hm)]

/-- C5 (code evaluation at the failing input): for the mime type `image/png`
and UTF-8 text contents, `buildPastePayload` inlines the file contents instead
of the saved path — the mime whitelist of `isTextLike` is dead code because
its fallthrough also returns `isUTF8Text(data)`. -/
theorem buildPastePayload_image_inlines :
    buildPastePayload (asciiBytes "/tmp/tmux-adapter/uploads/1-x.png")
        (asciiBytes "image/png") (asciiBytes "hello") = asciiBytes "hello" ∧
      asciiBytes "hello" ≠ asciiBytes "/tmp/tmux-adapter/uploads/1-x.png" := by
  constructor
  · rfl
  · decide

/-- `parseFileUploadPayload` on `"a" \0 "b" \0 fileBytes`. -/
theorem parseFileUploadPayload_ab (c : Bytes) :
    parseFileUploadPayload (0x61 :: 0 :: 0x62 :: 0 :: c) =
      .ok ([0x61], [0x62], c) := rfl

/-- C6: with a well-formed `fileName \0 mimeType \0 fileBytes` payload, an
upload whose file is exactly 8 MiB passes the size gate (and succeeds whenever
the agent exists and saving and pasting succeed), while 8 MiB + 1 fails with
the too-large error before any effect: nothing is saved and nothing pasted. -/
theorem file_upload_size_boundary
    (env : UploadEnv) (name p1 p2 fn1 mt1 f1 fn2 mt2 f2 : Bytes) (ag : Agent)
    (sp : Bytes)
    (h1 : parseFileUploadPayload p1 = .ok (fn1, mt1, f1))
    (hl1 : f1.length = 8388608)
    (h2 : parseFileUploadPayload p2 = .ok (fn2, mt2, f2))
    (hl2 : f2.length = 8388609)
    (ha : env.agent = some ag)
    (hs : env.savedPath = some sp)
    (hp : env.pasteOk = true) :
    (handleBinaryFileUpload env name p1).2 = none ∧
    handleBinaryFileUpload env name p2 = ([], some (UploadErr.tooLarge 8388609)) := by
  constructor
  · norm_num [handleBinaryFileUpload, h1, hl1, maxFileUploadBytes, ha, hs, hp]
  · norm_num [handleBinaryFileUpload, h2, hl2, maxFileUploadBytes]

/-- Concrete upload environment for witnesses. -/
def uploadEnvW : UploadEnv :=
  ⟨some agAttached, some (asciiBytes "/gt/hq/.tmux-adapter/uploads/1-a.txt"), true⟩

/-- An exactly-8-MiB upload payload (name "a", mime "b"). -/
def uploadP1 : Bytes := 0x61 :: 0 :: 0x62 :: 0 :: List.replicate 8388608 0x61

/-- An 8-MiB-plus-one upload payload (name "a", mime "b"). -/
def uploadP2 : Bytes := 0x61 :: 0 :: 0x62 :: 0 :: List.replicate 8388609 0x61

/-- C6 witness: the boundary theorem applied at the two concrete payloads. -/
theorem file_upload_size_boundary_witness :
    parseFileUploadPayload uploadP1 =
        .ok ([0x61], [0x62], List.replicate 8388608 0x61) ∧
      parseFileUploadPayload uploadP2 =
        .ok ([0x61], [0x62], List.replicate 8388609 0x61) ∧
      (handleBinaryFileUpload uploadEnvW [0x68] uploadP1).2 = none ∧
      handleBinaryFileUpload uploadEnvW [0x68] uploadP2 =
        ([], some (UploadErr.tooLarge 8388609)) := by
  have h1 := parseFileUploadPayload_ab (List.replicate 8388608 0x61)
  have h2 := parseFileUploadPayload_ab (List.replicate 8388609 0x61)
  have main := file_upload_size_boundary uploadEnvW [0x68] uploadP1 uploadP2
    [0x61] [0x62] (List.replicate 8388608 0x61)
    [0x61] [0x62] (List.replicate 8388609 0x61)
    agAttached (asciiBytes "/gt/hq/.tmux-adapter/uploads/1-a.txt")
    h1 (List.length_replicate _ _) h2 (List.length_replicate _ _) rfl rfl rfl
  exact ⟨h1, h2, main.1, main.2⟩

/-- C7: for a binary resize frame whose payload parses as `cols:rows`, the
handler rejects out-of-range dimensions (`cols < 2 ∨ rows < 1`) with an error
and no command, and otherwise issues exactly one resize-window command with
exactly those dimensions. -/
theorem binary_resize_bounds
    (env : BinEnv) (data name payload a b : Bytes) (cols rows : Int)
    (henv : parseBinaryEnvelope data = .ok (3, name, payload))
    (hsplit : splitFirstColon payload = some (a, b))
    (hc : atoi64 a = some cols) (hr : atoi64 b = some rows) :
    ((cols < 2 ∨ rows < 1) →
      handleBinaryMessage env data = ([], [BinResp.resizeOutOfRange name cols rows])) ∧
    (2 ≤ cols → 1 ≤ rows →
      (handleBinaryMessage env data).1 = [WsEffect.resizeWindow name cols rows]) := by
  constructor
  · intro hlt
    simp [handleBinaryMessage, henv, hsplit, hc, hr, hlt]
  · intro h2 h1
    have hnot : ¬(cols < 2 ∨ rows < 1) := by omega
    cases hre : env.resizeOk <;>
      simp [handleBinaryMessage, henv, hsplit, hc, hr, hnot, hre]

/-- Concrete handler environment for witnesses. -/
def binEnvW : BinEnv :=
  ⟨⟨some agAttached, some (asciiBytes "/gt/hq/.tmux-adapter/uploads/1-a.txt"), true⟩,
   true, true⟩

/-- C7 witness: the resize frame `0x03 'h' 0x00 "80:24"` resizes to 80×24. -/
theorem binary_resize_bounds_witness :
    parseBinaryEnvelope [3, 0x68, 0, 0x38, 0x30, 0x3a, 0x32, 0x34] =
        .ok (3, [0x68], [0x38, 0x30, 0x3a, 0x32, 0x34]) ∧
      (handleBinaryMessage binEnvW [3, 0x68, 0, 0x38, 0x30, 0x3a, 0x32, 0x34]).1 =
        [WsEffect.resizeWindow [0x68] 80 24] := by
  have henv : parseBinaryEnvelope [3, 0x68, 0, 0x38, 0x30, 0x3a, 0x32, 0x34] =
      .ok (3, [0x68], [0x38, 0x30, 0x3a, 0x32, 0x34]) := by rfl
  have hsplit : splitFirstColon [0x38, 0x30, 0x3a, 0x32, 0x34] =
      some ([0x38, 0x30], [0x32, 0x34]) := by decide
  have hc : atoi64 [0x38, 0x30] = some 80 := by decide
  have hr : atoi64 [0x32, 0x34] = some 24 := by decide
  exact ⟨henv,
    (binary_resize_bounds binEnvW _ _ _ _ _ _ _ henv hsplit hc hr).2
      (by norm_num) (by norm_num)⟩

/-- C8: every binary frame shorter than 3 bytes, or lacking a 0x00 separator
after the type byte, or with an empty agent name, is rejected by the envelope
parser, and the handler then issues no command and responds with exactly one
invalid-envelope error. -/
theorem binary_envelope_rejected
    (env : BinEnv) (data : Bytes)
    (h : data.length < 3 ∨ (0 : Nat) ∉ data.drop 1 ∨ (data.drop 1).head? = some 0) :
    (∃ e, parseBinaryEnvelope data = .error e) ∧
    (handleBinaryMessage env data).1 = [] ∧
    ∃ e, (handleBinaryMessage env data).2 = [BinResp.invalidEnvelope e] := by
  have hp : ∃ e, parseBinaryEnvelope data = .error e := by
    by_cases hlen : data.length < 3
    · exact ⟨"frame too short", by simp [parseBinaryEnvelope, hlen]⟩
    · rcases h with h | h | h
      · exact absurd h hlen
      · cases data with
        | nil => exact absurd (by simp) hlen
        | cons t rest =>
          refine ⟨"missing agent separator", ?_⟩
          have hnone : indexByte 0 rest = none :=
            indexByte_eq_none 0 rest (by simpa using h)
          simp only [parseBinaryEnvelope]
          rw [if_neg hlen]
          simp [hnone]
      · cases data with
        | nil => simp at h
        | cons t rest =>
          cases rest with
          | nil => simp at h
          | cons r0 rest' =>
            have hr0 : r0 = 0 := by simpa using h
            subst hr0
            refine ⟨"missing agent name", ?_⟩
            simp only [parseBinaryEnvelope]
            rw [if_neg hlen]
            simp [indexByte]
  obtain ⟨e, he⟩ := hp
  exact ⟨⟨e, he⟩, by simp [handleBinaryMessage, he], ⟨e, by simp [handleBinaryMessage, he]⟩⟩

/-- C8 witness: the frame `[0x02, 0x00, 0x41]` (empty agent name) is rejected
and produces no command. -/
theorem binary_envelope_rejected_witness :
    (([2, 0, 0x41] : Bytes).length < 3 ∨ (0 : Nat) ∉ ([2, 0, 0x41] : Bytes).drop 1 ∨
      (([2, 0, 0x41] : Bytes).drop 1).head? = some 0) ∧
    ((∃ e, parseBinaryEnvelope [2, 0, 0x41] = .error e) ∧
     (handleBinaryMessage binEnvW [2, 0, 0x41]).1 = [] ∧
     ∃ e, (handleBinaryMessage binEnvW [2, 0, 0x41]).2 = [BinResp.invalidEnvelope e]) := by
  have h : (([2, 0, 0x41] : Bytes).length < 3 ∨
      (0 : Nat) ∉ ([2, 0, 0x41] : Bytes).drop 1 ∨
      (([2, 0, 0x41] : Bytes).drop 1).head? = some 0) := by
    right; right; rfl
  exact ⟨h, binary_envelope_rejected binEnvW [2, 0, 0x41] h⟩

/-! ## subscribe-output (src/internal/ws/handler.go, handleSubscribeOutput)

The pipe-pane manager itself (internal/tmux/pipepane.go) is not under src/;
its `Subscribe` is modelled from spec §4.5. -/

/-- `makeBinaryFrame`: `msgType | agentName | 0x00 | payload`. -/
def makeBinaryFrame (msgType : Nat) (agentName : Bytes) (payload : Bytes) : Bytes :=
  msgType :: agentName ++ 0 :: payload

/-- The 0x05 snapshot trigger payload `"\x1b[2J\x1b[H"` (clear screen + home). -/
def snapshotPayload : Bytes := [0x1b, 0x5b, 0x32, 0x4a, 0x1b, 0x5b, 0x48]

/-- A message sent to a client: a JSON response (the fields used by
`subscribe-output`) or a binary frame. -/
inductive OutMsg where
  | json (id : String) (type : String) (ok : Option Bool) (error : Option String)
      (history : Option String)
  | bin (frame : Bytes)
deriving DecidableEq, Repr

/-- Pipe-pane manager state: the (agent, channel) subscriber entries and the
next fresh channel id.  Modelled from the spec: pipepane.go is not under
src/; spec §4.5 gives its per-agent state (refcount = number of subscriber
channels for that agent). -/
structure PipePaneManager where
  subs : List (Bytes × Nat)
  nextCh : Nat
deriving DecidableEq, Repr

/-- Modelled from the spec: §4.5 `subscribe(name) → ch` — "Add a fresh
buffered channel (capacity 256 chunks) to the subscriber set; refcount++.
Return the channel."  Every call adds a fresh channel. -/
def pmSubscribe (m : PipePaneManager) (name : Bytes) : Nat × PipePaneManager :=
  (m.nextCh, ⟨m.subs ++ [(name, m.nextCh)], m.nextCh + 1⟩)

/-- The number of fan-out subscriptions the manager holds for `name`. -/
def fanoutCount (m : PipePaneManager) (name : Bytes) : Nat :=
  (m.subs.filter fun p => p.1 == name).length

/-- Map-overwrite assignment `c.outputSubs[agent] = ch` on the client's
subscription table. -/
def setOutputSub (tbl : List (Bytes × Nat)) (name : Bytes) (ch : Nat) :
    List (Bytes × Nat) :=
  (tbl.filter fun p => !(p.1 == name)) ++ [(name, ch)]

/-- The number of entries the client's table records for `name`. -/
def countOutputSubs (tbl : List (Bytes × Nat)) (name : Bytes) : Nat :=
  (tbl.filter fun p => p.1 == name).length

/-- A client's subscription-relevant state: the shared pipe-pane manager and
its own `outputSubs` table. -/
structure ClientState where
  mgr : PipePaneManager
  outputSubs : List (Bytes × Nat)
deriving DecidableEq, Repr

/-- A `subscribe-output` request (`{id, type, agent, stream?}`). -/
structure SubReq where
  id : String
  agent : Bytes
  stream : Option Bool
deriving DecidableEq, Repr

/-- `handleSubscribeOutput(c, req)`: guard on the agent field and the
registry; on the streaming path subscribe to the fan-out, record the channel
(map overwrite), send the JSON ack, drain the chunks already buffered on the
channel, force a redraw, send the 0x05 snapshot trigger, and forward every
chunk subsequently read from the channel as a 0x01 frame until it closes; on
the `stream:false` path return the full capture in the ack.  `agentExists` is
the registry lookup, `pipeErr` a `pipeMgr.Subscribe` failure, `buffered` the
chunks drained before the redraw, `rest` the chunks read afterwards until the
channel closes, `capture` the `CapturePaneAll` text. -/
def handleSubscribeOutput (st : ClientState) (agentExists : Bool)
    (pipeErr : Option String) (_buffered rest : List Bytes) (capture : String)
    (req : SubReq) : ClientState × List OutMsg :=
  if req.agent = [] then
    (st, [OutMsg.json req.id "error" none (some "agent field required") none])
  else if !agentExists then
    (st, [OutMsg.json req.id "subscribe-output" (some false)
            (some "agent not found") none])
  else
    let wantStream := match req.stream with | none => true | some b => b
    if wantStream then
      match pipeErr with
      | some e =>
        (st, [OutMsg.json req.id "subscribe-output" (some false) (some e) none])
      | none =>
        let subRes := pmSubscribe st.mgr req.agent
        ({ mgr := subRes.2,
           outputSubs := setOutputSub st.outputSubs req.agent subRes.1 },
         OutMsg.json req.id "subscribe-output" (some true) none none ::
         OutMsg.bin (makeBinaryFrame 5 req.agent snapshotPayload) ::
         rest.map fun chunk => OutMsg.bin (makeBinaryFrame 1 req.agent chunk))
    else
      (st, [OutMsg.json req.id "subscribe-output" (some true) none (some capture)])

/-- "Is a type-0x05 binary frame." -/
def isSnapshotFrame : OutMsg → Bool
  | OutMsg.bin (t :: _) => t == 5
  | _ => false

/-- One successful streaming subscribe, fully evaluated: the new state adds a
fresh fan-out channel and overwrites the table entry, and the messages are the
ack, the snapshot trigger, and the forwarded 0x01 frames. -/
theorem handleSubscribeOutput_stream_eq
    (st : ClientState) (buffered rest : List Bytes) (capture : String)
    (req : SubReq) (hagent : req.agent ≠ []) (hstream : req.stream ≠ some false) :
    handleSubscribeOutput st true none buffered rest capture req =
      ({ mgr := (pmSubscribe st.mgr req.agent).2,
         outputSubs :=
           setOutputSub st.outputSubs req.agent (pmSubscribe st.mgr req.agent).1 },
       OutMsg.json req.id "subscribe-output" (some true) none none ::
       OutMsg.bin (makeBinaryFrame 5 req.agent snapshotPayload) ::
       rest.map fun chunk => OutMsg.bin (makeBinaryFrame 1 req.agent chunk)) := by
  have hws : (match req.stream with | none => true | some b => b) = true := by
    cases hs : req.stream with
    | none => rfl
    | some b =>
      cases b with
      | true => rfl
      | false => exact absurd hs hstream
  simp [handleSubscribeOutput, hagent, hws]

/-- Forwarded 0x01 frames are never snapshot frames. -/
theorem filter_snapshot_forwarded (agent : Bytes) (rest : List Bytes) :
    (rest.map fun chunk => OutMsg.bin (makeBinaryFrame 1 agent chunk)).filter
      isSnapshotFrame = [] := by
  induction rest with
  | nil => rfl
  | cons c cs ih => simp [makeBinaryFrame, isSnapshotFrame, ih]

/-- C3: a successful streaming `subscribe-output` sends, in order, the JSON
ack with ok:true, then exactly one binary 0x05 frame whose payload is exactly
the 7 bytes `1b 5b 32 4a 1b 5b 48`, then one 0x01 frame per chunk read from
the fan-out channel until it closes. -/
theorem subscribe_output_stream_sequence
    (st : ClientState) (buffered rest : List Bytes) (capture : String)
    (req : SubReq) (hagent : req.agent ≠ []) (hstream : req.stream ≠ some false) :
    (handleSubscribeOutput st true none buffered rest capture req).2 =
      OutMsg.json req.id "subscribe-output" (some true) none none ::
      OutMsg.bin (makeBinaryFrame 5 req.agent snapshotPayload) ::
      rest.map (fun chunk => OutMsg.bin (makeBinaryFrame 1 req.agent chunk)) ∧
    snapshotPayload = [0x1b, 0x5b, 0x32, 0x4a, 0x1b, 0x5b, 0x48] ∧
    snapshotPayload.length = 7 ∧
    ((handleSubscribeOutput st true none buffered rest capture req).2.filter
      isSnapshotFrame).length = 1 := by
  have heq := handleSubscribeOutput_stream_eq st buffered rest capture req hagent hstream
  refine ⟨by rw [heq], rfl, rfl, ?_⟩
  rw [heq]
  simp [isSnapshotFrame, makeBinaryFrame, snapshotPayload, filter_snapshot_forwarded]

/-- The empty client state (fresh manager, no subscriptions). -/
def emptyClientState : ClientState := ⟨⟨[], 0⟩, []⟩

/-- A concrete streaming subscribe request for agent "hq". -/
def subReqW : SubReq := ⟨"3", [0x68, 0x71], none⟩

/-- C3 witness: the sequence theorem applied at a concrete subscription with
one pre-buffered chunk and two streamed chunks. -/
theorem subscribe_output_stream_sequence_witness :
    (handleSubscribeOutput emptyClientState true none [[0x78]] [[0x41], [0x42]]
        "" subReqW).2 =
      OutMsg.json "3" "subscribe-output" (some true) none none ::
      OutMsg.bin (makeBinaryFrame 5 [0x68, 0x71] snapshotPayload) ::
      ([[0x41], [0x42]] : List Bytes).map
        (fun chunk => OutMsg.bin (makeBinaryFrame 1 [0x68, 0x71] chunk)) ∧
    snapshotPayload = [0x1b, 0x5b, 0x32, 0x4a, 0x1b, 0x5b, 0x48] ∧
    snapshotPayload.length = 7 ∧
    ((handleSubscribeOutput emptyClientState true none [[0x78]] [[0x41], [0x42]]
        "" subReqW).2.filter isSnapshotFrame).length = 1 :=
  subscribe_output_stream_sequence emptyClientState [[0x78]] [[0x41], [0x42]] ""
    subReqW (by decide) (by decide)

/-- C4 counterexample: two consecutive streaming `subscribe-output` requests
for the same agent from the same client leave two fan-out subscriptions in
the pipe-pane manager, not one (the handler subscribes unconditionally and
only overwrites its table entry). -/
theorem subscribe_output_second_fanout_counterexample :
    fanoutCount
      ((handleSubscribeOutput
          (handleSubscribeOutput emptyClientState true none [] [] "" subReqW).1
          true none [] [] "" ⟨"4", [0x68, 0x71], none⟩).1).mgr [0x68, 0x71] = 2 ∧
    fanoutCount
      ((handleSubscribeOutput
          (handleSubscribeOutput emptyClientState true none [] [] "" subReqW).1
          true none [] [] "" ⟨"4", [0x68, 0x71], none⟩).1).mgr [0x68, 0x71] ≠ 1 := by
  constructor
  · rfl
  · decide

/-- Adding a fan-out subscription raises the agent's refcount by one. -/
theorem fanoutCount_pmSubscribe (m : PipePaneManager) (name : Bytes) :
    fanoutCount (pmSubscribe m name).2 name = fanoutCount m name + 1 := by
  simp [fanoutCount, pmSubscribe, List.filter_append]

/-- Overwriting the table entry leaves exactly one entry for the agent. -/
theorem countOutputSubs_set (tbl : List (Bytes × Nat)) (name : Bytes) (ch : Nat) :
    countOutputSubs (setOutputSub tbl name ch) name = 1 := by
  simp [countOutputSubs, setOutputSub, List.filter_append, List.filter_filter]

/-- C4 amended: a second streaming `subscribe-output` on the same
(client, agent) creates a second fan-out subscription in the pipe-pane
manager (the first channel is replaced in the client's table without being
unsubscribed), while the client's table still records exactly one channel for
that agent and each of the two requests is acknowledged with ok:true. -/
theorem subscribe_output_second_subscribe
    (st : ClientState) (req : SubReq) (b1 r1 b2 r2 : List Bytes)
    (cap1 cap2 : String)
    (hagent : req.agent ≠ []) (hstream : req.stream ≠ some false) :
    fanoutCount
        ((handleSubscribeOutput
          (handleSubscribeOutput st true none b1 r1 cap1 req).1
          true none b2 r2 cap2 req).1).mgr req.agent =
      fanoutCount st.mgr req.agent + 2 ∧
    countOutputSubs
        ((handleSubscribeOutput
          (handleSubscribeOutput st true none b1 r1 cap1 req).1
          true none b2 r2 cap2 req).1).outputSubs req.agent = 1 ∧
    (handleSubscribeOutput st true none b1 r1 cap1 req).2.head? =
      some (OutMsg.json req.id "subscribe-output" (some true) none none) ∧
    (handleSubscribeOutput
        (handleSubscribeOutput st true none b1 r1 cap1 req).1
        true none b2 r2 cap2 req).2.head? =
      some (OutMsg.json req.id "subscribe-output" (some true) none none) := by
  have h1 := handleSubscribeOutput_stream_eq st b1 r1 cap1 req hagent hstream
  have h2 := handleSubscribeOutput_stream_eq
    (handleSubscribeOutput st true none b1 r1 cap1 req).1 b2 r2 cap2 req
    hagent hstream
  refine ⟨?_, ?_, by rw [h1]; rfl, by rw [h2]; rfl⟩
  · rw [h2, h1]
    simp [fanoutCount_pmSubscribe]
  · rw [h2]
    simp [countOutputSubs_set]

/-- C4 amended witness: the two-subscribe theorem at the empty client state
and the concrete request. -/
theorem subscribe_output_second_subscribe_witness :
    fanoutCount
        ((handleSubscribeOutput
          (handleSubscribeOutput emptyClientState true none [] [] "x" subReqW).1
          true none [] [] "y" subReqW).1).mgr subReqW.agent =
      fanoutCount emptyClientState.mgr subReqW.agent + 2 ∧
    countOutputSubs
        ((handleSubscribeOutput
          (handleSubscribeOutput emptyClientState true none [] [] "x" subReqW).1
          true none [] [] "y" subReqW).1).outputSubs subReqW.agent = 1 ∧
    (handleSubscribeOutput emptyClientState true none [] [] "x" subReqW).2.head? =
      some (OutMsg.json subReqW.id "subscribe-output" (some true) none none) ∧
    (handleSubscribeOutput
        (handleSubscribeOutput emptyClientState true none [] [] "x" subReqW).1
        true none [] [] "y" subReqW).2.head? =
      some (OutMsg.json subReqW.id "subscribe-output" (some true) none none) :=
  subscribe_output_second_subscribe emptyClientState subReqW [] [] [] [] "x" "y"
    (by decide) (by decide)

/-! ## HTTP authorization (src/internal/auth) -/

/-- Go `unicode.IsSpace` (the Unicode White_Space property). -/
def goIsSpace (c : Char) : Bool :=
  let n := c.toNat
  n = 0x20 || (0x9 ≤ n && n ≤ 0xD) || n = 0x85 || n = 0xA0 ||
  n = 0x1680 || (0x2000 ≤ n && n ≤ 0x200A) ||
  n = 0x2028 || n = 0x2029 || n = 0x202F || n = 0x205F || n = 0x3000

/-- `strings.TrimSpace` on rune strings. -/
def trimSpace (l : List Char) : List Char := trimWhile goIsSpace l

/-- The request data `IsAuthorizedRequest` reads: the `Authorization` header
value and the `token` query parameter value. -/
structure HttpRequest where
  authorization : List Char
  tokenQuery : List Char

/-- `tokensEqual`: both strings non-empty and equal
(`subtle.ConstantTimeCompare` returns 1 exactly on equal byte strings). -/
def tokensEqual (expected actual : List Char) : Bool :=
  if expected = [] ∨ actual = [] then false
  else expected == actual

/-- The `"Bearer "` prefix. -/
def bearerPrefix : List Char := "Bearer ".data

/-- `auth.IsAuthorizedRequest(expectedToken, r)`: auth disabled when the
configured token trims to empty; otherwise accept a matching trimmed bearer
token from the `Authorization` header, falling back to the trimmed `token`
query parameter. -/
def IsAuthorizedRequest (expectedToken : List Char) (r : HttpRequest) : Bool :=
  let token := trimSpace expectedToken
  if token = [] then true
  else
    let authHeader := trimSpace r.authorization
    if bearerPrefix.isPrefixOf authHeader &&
        tokensEqual token (trimSpace (authHeader.drop bearerPrefix.length)) then
      true
    else
      tokensEqual token (trimSpace r.tokenQuery)

/-- The claim's acceptance condition, written from its words: the configured
token (after trimming whitespace) is empty, or the Authorization header
carries `Bearer ` followed by a token equal to the configured one, or the
`token` query parameter equals the configured one — presented tokens compared
after whitespace trimming, as the code treats them. -/
def authorizedSpec (expectedToken : List Char) (r : HttpRequest) : Prop :=
  trimSpace expectedToken = [] ∨
  (bearerPrefix.isPrefixOf (trimSpace r.authorization) ∧
   trimSpace ((trimSpace r.authorization).drop bearerPrefix.length) =
     trimSpace expectedToken) ∨
  trimSpace r.tokenQuery = trimSpace expectedToken

/-- `tokensEqual` holds exactly for equal non-empty strings. -/
theorem tokensEqual_iff (e a : List Char) :
    tokensEqual e a = true ↔ (e ≠ [] ∧ a ≠ [] ∧ e = a) := by
  unfold tokensEqual
  by_cases h : e = [] ∨ a = []
  · rcases h with h | h <;> simp [h]
  · push_neg at h
    simp [h.1, h.2]

/-- C9: the authorization check accepts a request exactly when the spec's
acceptance condition holds. -/
theorem isAuthorizedRequest_iff (expectedToken : List Char) (r : HttpRequest) :
    IsAuthorizedRequest expectedToken r = true ↔ authorizedSpec expectedToken r := by
  by_cases ht : trimSpace expectedToken = []
  · simp [IsAuthorizedRequest, authorizedSpec, ht]
  · unfold IsAuthorizedRequest
    rw [if_neg ht]
    by_cases hb : (bearerPrefix.isPrefixOf (trimSpace r.authorization) &&
        tokensEqual (trimSpace expectedToken)
          (trimSpace ((trimSpace r.authorization).drop bearerPrefix.length))) = true
    · rw [if_pos hb]
      rw [Bool.and_eq_true] at hb
      obtain ⟨hpre, heq⟩ := hb
      rcases (tokensEqual_iff _ _).mp heq with ⟨-, -, heq'⟩
      exact iff_of_true rfl (Or.inr (Or.inl ⟨hpre, heq'.symm⟩))
    · rw [if_neg hb]
      rw [Bool.and_eq_true] at hb
      rw [tokensEqual_iff]
      unfold authorizedSpec
      constructor
      · rintro ⟨-, -, hq⟩
        exact Or.inr (Or.inr hq.symm)
      · rintro (h | ⟨hpre, hbear⟩ | h)
        · exact absurd h ht
        · exact absurd
            ⟨hpre, (tokensEqual_iff _ _).mpr ⟨ht, by rw [hbear]; exact ht, hbear.symm⟩⟩ hb
        · exact ⟨ht, by rw [h]; exact ht, h.symm⟩

/-! ## Upload file-name sanitisation (src/internal/ws/file_upload.go,
sanitizePathComponent and saveUploadedFile)

File names are Go strings iterated as runes, so they are modelled as
`List Char`.  `unicode.IsLetter` and `unicode.IsDigit` (full Unicode
category tables) are taken as parameters; the theorems assume only that
`'/'` is classified as neither and that ASCII letters are letters. -/

/-- `os.IsPathSeparator` on unix: `'/'`. -/
def isSep (c : Char) : Bool := c == '/'

/-- `filepath.Base` (unix): `""` → `"."`; strip trailing separators; keep the
part after the last separator; all-separators → `"/"`. -/
def filepathBase (path : List Char) : List Char :=
  if path = [] then ['.']
  else
    let p1 := trimRightWhile isSep path
    let b := (p1.reverse.takeWhile fun c => !isSep c).reverse
    if b = [] then ['/'] else b

/-- The per-rune body of `sanitizePathComponent`'s loop: keep letters, digits,
`'.'`, `'-'`, `'_'`; replace everything else by `'_'`. -/
def stepChar (isLetter isDigit : Char → Bool) (r : Char) : Char :=
  if isLetter r || isDigit r || r == '.' || r == '-' || r == '_' then r else '_'

/-- `sanitizePathComponent(s)`: take the base of the trimmed name, fall back
to `"attachment.bin"` for degenerate bases, map each rune through the
keep-or-underscore loop, trim whitespace and dots, and fall back to
`"attachment.bin"` when nothing is left. -/
def sanitizePathComponent (isLetter isDigit : Char → Bool) (s : List Char) :
    List Char :=
  if filepathBase (trimSpace s) = [] ∨ filepathBase (trimSpace s) = ['.'] ∨
      filepathBase (trimSpace s) = ['/'] then
    "attachment.bin".data
  else if trimWhile (fun c => c == '.')
      (trimSpace ((filepathBase (trimSpace s)).map (stepChar isLetter isDigit))) = [] then
    "attachment.bin".data
  else
    trimWhile (fun c => c == '.')
      (trimSpace ((filepathBase (trimSpace s)).map (stepChar isLetter isDigit)))

/-- The base name `saveUploadedFile` writes:
`fmt.Sprintf("%d-%s", time.Now().UnixNano(), safeName)`. -/
def stampedName (isLetter isDigit : Char → Bool) (nanos : Nat)
    (fileName : List Char) : List Char :=
  (toString nanos).data ++ '-' :: sanitizePathComponent isLetter isDigit fileName

/-- Membership survives `dropWhile`. -/
theorem mem_dropWhile {p : α → Bool} {l : List α} {a : α}
    (h : a ∈ l.dropWhile p) : a ∈ l := by
  induction l with
  | nil => simp at h
  | cons x xs ih =>
    rw [List.dropWhile_cons] at h
    by_cases hp : p x = true
    · rw [if_pos hp] at h
      exact List.mem_cons_of_mem _ (ih h)
    · rw [if_neg hp] at h
      exact h

/-- Membership survives the two-sided trim. -/
theorem mem_trimWhile {p : α → Bool} {l : List α} {a : α}
    (h : a ∈ trimWhile p l) : a ∈ l := by
  unfold trimWhile trimRightWhile at h
  rw [List.mem_reverse] at h
  have h2 := mem_dropWhile h
  rw [List.mem_reverse] at h2
  exact mem_dropWhile h2

/-- The head surviving `dropWhile` fails the predicate. -/
theorem dropWhile_head_false {p : α → Bool} {l : List α} {a : α} {t : List α}
    (h : l.dropWhile p = a :: t) : p a = false := by
  induction l with
  | nil => simp at h
  | cons x xs ih =>
    rw [List.dropWhile_cons] at h
    by_cases hp : p x = true
    · rw [if_pos hp] at h
      exact ih h
    · rw [if_neg hp] at h
      obtain ⟨h1, -⟩ := List.cons.inj h
      subst h1
      simp at hp
      exact hp

/-- The head surviving the two-sided trim fails the predicate. -/
theorem trimWhile_head_false {p : α → Bool} {l : List α} {a : α} {t : List α}
    (h : trimWhile p l = a :: t) : p a = false := by
  have hsplit : l.dropWhile p =
      trimWhile p l ++ ((l.dropWhile p).reverse.takeWhile p).reverse := by
    unfold trimWhile trimRightWhile
    conv_lhs => rw [← List.reverse_reverse (l.dropWhile p),
      ← List.takeWhile_append_dropWhile (p := p) (l := (l.dropWhile p).reverse),
      List.reverse_append]
  rw [h] at hsplit
  exact dropWhile_head_false hsplit

/-- Every character of the mapped base is a kept character or `'_'`. -/
theorem mem_map_stepChar (isLetter isDigit : Char → Bool) (base : List Char)
    {c : Char} (h : c ∈ base.map (stepChar isLetter isDigit)) :
    (isLetter c || isDigit c || c == '.' || c == '-' || c == '_') = true := by
  obtain ⟨r, -, rfl⟩ := List.mem_map.mp h
  unfold stepChar
  by_cases hr : (isLetter r || isDigit r || r == '.' || r == '-' || r == '_') = true
  · rw [if_pos hr]
    exact hr
  · rw [if_neg hr]
    simp

/-- C10: for every file name — including `../../etc/passwd`, the empty name
and `.` — the sanitised component is non-empty, contains only letters,
digits, `'.'`, `'-'`, `'_'` (hence no path separator), never equals `"."` or
`".."`, and the saved base name is `<unixNanos>-<sanitised>`; so the saved
file lies directly inside the chosen uploads directory. -/
theorem sanitizePathComponent_safe
    (isLetter isDigit : Char → Bool) (s : List Char) (nanos : Nat)
    (hsepL : isLetter '/' = false) (hsepD : isDigit '/' = false)
    (hAlpha : ∀ c : Char, c.isAlpha = true → isLetter c = true) :
    sanitizePathComponent isLetter isDigit s ≠ [] ∧
    (∀ c ∈ sanitizePathComponent isLetter isDigit s,
      isLetter c = true ∨ isDigit c = true ∨ c = '.' ∨ c = '-' ∨ c = '_') ∧
    '/' ∉ sanitizePathComponent isLetter isDigit s ∧
    sanitizePathComponent isLetter isDigit s ≠ ['.'] ∧
    sanitizePathComponent isLetter isDigit s ≠ ['.', '.'] ∧
    stampedName isLetter isDigit nanos s =
      (toString nanos).data ++ '-' :: sanitizePathComponent isLetter isDigit s := by
  have hattachList : "attachment.bin".data =
      ['a', 't', 't', 'a', 'c', 'h', 'm', 'e', 'n', 't', '.', 'b', 'i', 'n'] := rfl
  have hattachMem : ∀ c ∈ "attachment.bin".data, c.isAlpha = true ∨ c = '.' := by
    rw [hattachList]
    decide
  have hmem : ∀ c ∈ sanitizePathComponent isLetter isDigit s,
      isLetter c = true ∨ isDigit c = true ∨ c = '.' ∨ c = '-' ∨ c = '_' := by
    intro c hc
    unfold sanitizePathComponent at hc
    split at hc
    · rcases hattachMem c hc with h | h
      · exact Or.inl (hAlpha c h)
      · exact Or.inr (Or.inr (Or.inl h))
    · split at hc
      · rcases hattachMem c hc with h | h
        · exact Or.inl (hAlpha c h)
        · exact Or.inr (Or.inr (Or.inl h))
      · have hc2 := mem_trimWhile (mem_trimWhile hc)
        have hstep := mem_map_stepChar isLetter isDigit _ hc2
        simp only [Bool.or_eq_true, beq_iff_eq, or_assoc] at hstep
        exact hstep
  have hnil : sanitizePathComponent isLetter isDigit s ≠ [] := by
    unfold sanitizePathComponent
    split
    · rw [hattachList]
      decide
    · split
      · rw [hattachList]
        decide
      · assumption
  have hdot : ∀ a t, sanitizePathComponent isLetter isDigit s = a :: t → a ≠ '.' := by
    intro a t hat
    unfold sanitizePathComponent at hat
    split at hat
    · rw [hattachList] at hat
      obtain ⟨h1, -⟩ := List.cons.inj hat
      subst h1
      decide
    · split at hat
      · rw [hattachList] at hat
        obtain ⟨h1, -⟩ := List.cons.inj hat
        subst h1
        decide
      · have := trimWhile_head_false hat
        simpa using this
  refine ⟨hnil, hmem, ?_, ?_, ?_, rfl⟩
  · intro hsl
    rcases hmem '/' hsl with h | h | h | h | h
    · rw [hsepL] at h
      exact Bool.false_ne_true h
    · rw [hsepD] at h
      exact Bool.false_ne_true h
    all_goals simp at h
  · intro hone
    exact hdot '.' [] hone rfl
  · intro htwo
    exact hdot '.' ['.'] htwo rfl

/-- C10 witness: the safety theorem at `isLetter := Char.isAlpha`,
`isDigit := Char.isDigit`, the adversarial name `../../etc/passwd`, and
nanos 1. -/
theorem sanitizePathComponent_safe_witness :
    (Char.isAlpha '/' = false ∧ Char.isDigit '/' = false) ∧
    (sanitizePathComponent Char.isAlpha Char.isDigit "../../etc/passwd".data ≠ [] ∧
     (∀ c ∈ sanitizePathComponent Char.isAlpha Char.isDigit "../../etc/passwd".data,
       Char.isAlpha c = true ∨ Char.isDigit c = true ∨ c = '.' ∨ c = '-' ∨ c = '_') ∧
     '/' ∉ sanitizePathComponent Char.isAlpha Char.isDigit "../../etc/passwd".data ∧
     sanitizePathComponent Char.isAlpha Char.isDigit "../../etc/passwd".data ≠ ['.'] ∧
     sanitizePathComponent Char.isAlpha Char.isDigit "../../etc/passwd".data ≠ ['.', '.'] ∧
     stampedName Char.isAlpha Char.isDigit 1 "../../etc/passwd".data =
       (toString 1).data ++ '-' ::
         sanitizePathComponent Char.isAlpha Char.isDigit "../../etc/passwd".data) :=
  ⟨⟨rfl, rfl⟩,
   sanitizePathComponent_safe Char.isAlpha Char.isDigit "../../etc/passwd".data 1
     rfl rfl (fun _ h => h)⟩

end TmuxAdapter
